import Mathlib

/-!
Shallow embedding of `src/main.py` (CTFtime leaderboard monitor).

Strings are modelled as `List Char` (Python `str` is a sequence of characters);
string literals are written `"...".data`.  Python `None`-or-list snapshot
arguments are modelled as `List Team` with `None ↦ []`: the source treats a
falsy (`None` or empty) snapshot identically to an empty one everywhere it is
used (`{…} if new else {}`, `if not old or …`).  The float score is used only
when `INCLUDE_POINTS` is true and then only through its fixed `:.2f` rendering,
so it is carried as the pre-rendered text `points_repr`.
-/

set_option maxRecDepth 40000

namespace CtftimeVakta

/-- The characters escaped by `escape_markdown`, in the order of the source's
character class `[\\`*_{}\[\]()#+\-.!]` (backtick and braces written via
`Char.ofNat` codes 96, 123, 125). -/
def specialChars : List Char :=
  ['\\', Char.ofNat 96, '*', '_', Char.ofNat 123, Char.ofNat 125,
   '[', ']', '(', ')', '#', '+', '-', '.', '!']

def isSpecial (c : Char) : Bool := specialChars.contains c

/-- `escape_markdown(text)`: `re.sub(r"([\\`*_{}\[\]()#+\-.!])", r"\\\1", text)`.
With a single-character pattern and a fixed replacement, `re.sub` scans the
text left to right and puts a backslash before every matched character. -/
def escape_markdown : List Char → List Char
  | [] => []
  | c :: rest =>
      if isSpecial c then '\\' :: c :: escape_markdown rest
      else c :: escape_markdown rest

/-- One leaderboard record after `fetch_leaderboard`'s stripping:
`team_id`, `team_name`, `country_place`, and the score (as rendered text). -/
structure Team where
  team_id : Nat
  team_name : List Char
  country_place : Int
  points_repr : List Char
deriving Repr, DecidableEq

def natStr (n : Nat) : List Char := Nat.toDigits 10 n

/-- Python `f"{i}"` for an `int`. -/
def intStr (i : Int) : List Char :=
  if i < 0 then '-' :: natStr i.natAbs else natStr i.toNat

/-- `TEAM_PAGE_URL_TEMPLATE.format(team_id=team_id)`. -/
def teamPageUrl (team_id : Nat) : List Char :=
  "https://ctftime.org/team/".data ++ natStr team_id

/-- `format_team_name(team, use_link, include_points)`. -/
def format_team_name (team : Team) (use_link : Bool) (include_points : Bool) :
    List Char :=
  let name := escape_markdown team.team_name
  let name :=
    if include_points then name ++ " (".data ++ team.points_repr ++ " p)".data
    else name
  if use_link then
    "[".data ++ name ++ "](<".data ++ teamPageUrl team.team_id ++ ">)".data
  else name

/-- `", ".join(fs)`. -/
def commaJoin : List (List Char) → List Char
  | [] => []
  | [f] => f
  | f :: rest => f ++ ", ".data ++ commaJoin rest

/-- Python `dict` lookup `map[tid]` on a dict with unique keys (first match). -/
def lookup (l : List Team) (tid : Nat) : Option Team :=
  l.find? (fun t => t.team_id == tid)

/-- The list comprehension
`[format_team_name(team_map[t_id], use_link, include_points) for t_id in team_ids]`;
a missing key raises (`none`). -/
def fmtEach (team_map : List Team) (use_link include_points : Bool) :
    List Nat → Option (List (List Char))
  | [] => some []
  | tid :: rest =>
      match lookup team_map tid, fmtEach team_map use_link include_points rest with
      | some t, some fs => some (format_team_name t use_link include_points :: fs)
      | _, _ => none

/-- `format_team_list(team_ids, team_map, use_link, include_points)`. -/
def format_team_list (team_ids : List Nat) (team_map : List Team)
    (use_link include_points : Bool) : Option (List Char) :=
  if team_ids = [] then some []
  else
    match fmtEach team_map use_link include_points team_ids with
    | none => none
    | some formatted =>
        if formatted.length = 1 then some (formatted.headD [])
        else some (commaJoin formatted.dropLast ++ " og ".data
                    ++ formatted.getLastD [])

def teamKey (t : Team) : Nat := t.team_id

def keyMem (tid : Nat) (l : List Team) : Bool :=
  l.any (fun t => t.team_id == tid)

/-- One step of Python dict construction `{t["team_id"]: t for t in ts}`:
a repeated key keeps its first-insertion position but takes the new value. -/
def upsert (acc : List Team) (t : Team) : List Team :=
  if keyMem t.team_id acc then
    acc.map (fun u => if u.team_id == t.team_id then t else u)
  else acc ++ [t]

/-- `{t["team_id"]: t for t in ts}` as an insertion-ordered key-unique list. -/
def dictOf (ts : List Team) : List Team := ts.foldl upsert []

/-- The classification loop of `generate_message` (lines 159–169): iterate over
`new_map.items()`, skip the tracked team and teams absent from `old_map`, and
append to `overtaken_ids` when `new_t_place < new_place and old_t_place >= old_place`,
else to `passed_ids` when `new_t_place > new_place and old_t_place <= old_place`.
Returns `(passed_ids, overtaken_ids)` in iteration order. -/
def collectMoves (old_map : List Team) (tracked : Nat) (new_place old_place : Int) :
    List Team → List Nat × List Nat
  | [] => ([], [])
  | nt :: rest =>
      let res := collectMoves old_map tracked new_place old_place rest
      if nt.team_id == tracked then res
      else
        match lookup old_map nt.team_id with
        | none => res
        | some ot =>
            if nt.country_place < new_place ∧ ot.country_place ≥ old_place then
              (res.1, nt.team_id :: res.2)
            else if nt.country_place > new_place ∧ ot.country_place ≤ old_place then
              (nt.team_id :: res.1, res.2)
            else res

def USE_LINKS : Bool := true
def INCLUDE_POINTS : Bool := false

/-- `generate_message(old, new, tracked_team_id)` (lines 135–217).
A `None` snapshot is modelled as `[]` (the source treats falsy snapshots
identically). -/
def generate_message (old new : List Team) (tracked_team_id : Nat) :
    Option (List Char) :=
  let new_map := dictOf new
  let old_map := dictOf old
  match lookup new_map tracked_team_id with
  | none =>
      match lookup old_map tracked_team_id with
      | some t =>
          some ("**".data ++ t.team_name
            ++ " er ikke på det nye leaderboardet! De lå sist på ".data
            ++ intStr t.country_place ++ ". plass.**".data)
      | none => none
  | some tracked_new =>
      let team_name := format_team_name tracked_new USE_LINKS INCLUDE_POINTS
      let new_place := tracked_new.country_place
      match lookup old_map tracked_team_id with
      | none =>
          some ("**".data ++ team_name ++ " ligger nå på ".data
            ++ intStr new_place ++ ". plass**".data)
      | some tracked_old =>
          let old_place := tracked_old.country_place
          let moves := collectMoves old_map tracked_team_id new_place old_place new_map
          let passed_ids := moves.1
          let overtaken_ids := moves.2
          let passed_str :=
            (format_team_list passed_ids new_map USE_LINKS INCLUDE_POINTS).getD []
          let overtaken_str :=
            (format_team_list overtaken_ids new_map USE_LINKS INCLUDE_POINTS).getD []
          if new_place = old_place then
            if passed_ids ≠ [] ∧ overtaken_ids ≠ [] then
              some ("**".data ++ team_name ++ " ligger fortsatt på ".data
                ++ intStr new_place ++ ". plass. Vi tok igjen ".data ++ passed_str
                ++ ", men ble passert av ".data ++ overtaken_str ++ ".**".data)
            else none
          else if new_place = 1 then
            some ("**".data ++ team_name ++ " er på topp igjen!**".data)
          else if new_place < old_place then
            if passed_ids ≠ [] ∧ overtaken_ids ≠ [] then
              some ("**".data ++ team_name ++ " har rykket opp til ".data
                ++ intStr new_place ++ ". plass! Vi har tatt igjen ".data
                ++ passed_str ++ ", men ble også passert av ".data
                ++ overtaken_str ++ ".**".data)
            else if passed_ids ≠ [] then
              some ("**".data ++ team_name ++ " har rykket opp til ".data
                ++ intStr new_place ++ ". plass! Vi har tatt igjen ".data
                ++ passed_str ++ ".**".data)
            else
              some ("**".data ++ team_name ++ " har rykket opp til ".data
                ++ intStr new_place ++ ". plass!**".data)
          else if new_place > old_place then
            if passed_ids ≠ [] ∧ overtaken_ids ≠ [] then
              some ("**".data ++ team_name ++ " har falt til ".data
                ++ intStr new_place ++ ". plass! Vi tok igjen ".data ++ passed_str
                ++ ", men ble også passert av ".data ++ overtaken_str ++ ".**".data)
            else if overtaken_ids ≠ [] then
              some ("**".data ++ team_name ++ " har falt til ".data
                ++ intStr new_place ++ ". plass etter å ha blitt passert av ".data
                ++ overtaken_str ++ ".**".data)
            else
              some ("**".data ++ team_name ++ " har falt til ".data
                ++ intStr new_place ++ ". plass.**".data)
          else
            some ("**".data ++ team_name ++ " ligger nå på ".data
              ++ intStr new_place ++ ". plass.**".data)

/-- `team.pop(k, None)` on a record modelled as an association list with unique
keys: remove the entry with key `k` when present. -/
def pop_key {α : Type} (k : String) (r : List (String × α)) : List (String × α) :=
  r.filter (fun kv => kv.1 != k)

/-- The per-record stripping in `fetch_leaderboard` (lines 71–73):
`team.pop("team_country", None); team.pop("place", None)`. -/
def strip_team_record {α : Type} (r : List (String × α)) : List (String × α) :=
  pop_key "place" (pop_key "team_country" r)

/-- The post-fetch stripping loop `for team in data: …` of `fetch_leaderboard`,
applied to the fetched record list in order. -/
def fetch_strip {α : Type} (data : List (List (String × α))) :
    List (List (String × α)) :=
  data.map strip_team_record

/-- Number of positions of `s` at which `pat` occurs as a contiguous block. -/
def countSub (pat : List Char) : List Char → Nat
  | [] => 0
  | c :: rest =>
      (if pat.isPrefixOf (c :: rest) then 1 else 0) + countSub pat rest

/-- Spec wording of §4.1 (for claim C7): the input with `['\\', c]` substituted
for each special character `c` and every other character kept as is — "each
character in the set … is preceded by a backslash. No other transformation." -/
def escape_spec (s : List Char) : List Char :=
  (s.map (fun c => if isSpecial c then ['\\', c] else [c])).flatten

/-- Number of special (escaped) characters in a text. -/
def specialCount (s : List Char) : Nat := (s.filter isSpecial).length

/-- The property claimed by C6 for the escaper's output, verbatim: every
occurrence of a special character is immediately preceded by a backslash. -/
def escapedEveryCharPreceded (s : List Char) : Prop :=
  ∀ i : Fin s.length, isSpecial (s.get i) = true →
    0 < i.val ∧ s.getD (i.val - 1) 'A' = '\\'

instance (s : List Char) : Decidable (escapedEveryCharPreceded s) := by
  unfold escapedEveryCharPreceded; infer_instance

/-- Spec wording (§3, §4.3, for claim C1): `passed_ids` — "set of entity-ids
that moved ahead of the tracked entity", the other entities present in both
snapshots with `new_t < new_rank` and `old_t >= old_rank`, in new-snapshot
iteration order. -/
def spec_passed_ids (old_map : List Team) (tracked : Nat)
    (new_place old_place : Int) (new_map : List Team) : List Nat :=
  (new_map.filter (fun nt =>
    nt.team_id != tracked &&
      match lookup old_map nt.team_id with
      | some ot =>
          decide (nt.country_place < new_place)
            && decide (ot.country_place ≥ old_place)
      | none => false)).map teamKey

/-- Spec wording (§3, §4.3, for claim C1): `overtaken_ids` — "set of
entity-ids the tracked entity moved ahead of", the other entities present in
both snapshots with `new_t > new_rank` and `old_t <= old_rank`, in
new-snapshot iteration order. -/
def spec_overtaken_ids (old_map : List Team) (tracked : Nat)
    (new_place old_place : Int) (new_map : List Team) : List Nat :=
  (new_map.filter (fun nt =>
    nt.team_id != tracked &&
      match lookup old_map nt.team_id with
      | some ot =>
          decide (nt.country_place > new_place)
            && decide (ot.country_place ≤ old_place)
      | none => false)).map teamKey

/-- Concrete snapshots: tracked team 1 stays at rank 2 while team 2 falls
from 1 to 3 (we moved ahead of it) and team 3 climbs from 3 to 1 (it moved
ahead of us). -/
def exOld1 : List Team :=
  [⟨1, "A".data, 2, []⟩, ⟨2, "B".data, 1, []⟩, ⟨3, "C".data, 3, []⟩]

def exNew1 : List Team :=
  [⟨1, "A".data, 2, []⟩, ⟨2, "B".data, 3, []⟩, ⟨3, "C".data, 1, []⟩]

/-- Concrete snapshots: tracked team 1 climbs from rank 2 to rank 1 while
team 2 falls from 1 to 2. -/
def exOld4 : List Team := [⟨1, "A".data, 2, []⟩, ⟨2, "B".data, 1, []⟩]

def exNew4 : List Team := [⟨1, "A".data, 1, []⟩, ⟨2, "B".data, 2, []⟩]

/-- Concrete snapshots: tracked team 1 (name with a markdown-special `*`)
present at rank 2 in the old snapshot and absent from the new one. -/
def exOld9 : List Team := [⟨1, "A*B".data, 2, []⟩, ⟨2, "B".data, 1, []⟩]

def exNew9 : List Team := [⟨2, "B".data, 1, []⟩]

/-- Record map whose first team's display name contains `", "`. -/
def exMapC5 : List Team := [⟨1, "a, b".data, 1, []⟩, ⟨2, "c".data, 2, []⟩]

/-- Record map with two plain one-letter names. -/
def exMap5 : List Team := [⟨10, "A".data, 1, []⟩, ⟨20, "B".data, 2, []⟩]

lemma escape_markdown_cons (c : Char) (rest : List Char) :
    escape_markdown (c :: rest)
      = if isSpecial c then '\\' :: c :: escape_markdown rest
        else c :: escape_markdown rest := rfl

/-- C7: `escape_markdown` agrees with the spec's contract on every input. -/
theorem c7_escape_markdown_matches_spec (s : List Char) :
    escape_markdown s = escape_spec s := by
  induction s with
  | nil => rfl
  | cons c rest ih =>
      cases hc : isSpecial c <;>
        simp [escape_markdown_cons, escape_spec, hc, ih]

lemma escape_markdown_length (s : List Char) :
    (escape_markdown s).length = s.length + specialCount s := by
  induction s with
  | nil => rfl
  | cons c rest ih =>
      cases hc : isSpecial c <;>
        simp [escape_markdown_cons, hc, specialCount, List.filter_cons] at ih ⊢ <;>
        omega

lemma escape_markdown_preceded (s : List Char) :
    ∀ i, i < (escape_markdown s).length →
      isSpecial ((escape_markdown s).getD i 'A') = true →
      (escape_markdown s).getD i 'A' ≠ '\\' →
      0 < i ∧ (escape_markdown s).getD (i - 1) 'A' = '\\' := by
  induction s with
  | nil => intro i hi; simp [escape_markdown] at hi
  | cons c rest ih =>
      intro i hi hsp hne
      cases hc : isSpecial c with
      | true =>
          rw [escape_markdown_cons, if_pos hc] at hi hsp hne ⊢
          match i with
          | 0 => simp at hne
          | 1 => exact ⟨Nat.zero_lt_one, rfl⟩
          | Nat.succ (Nat.succ k) =>
              simp only [List.getD_cons_succ] at hi hsp hne ⊢
              simp only [List.length_cons] at hi
              obtain ⟨hk, hprev⟩ := ih k (by omega) hsp hne
              match k, hk with
              | Nat.succ k', _ =>
                  refine ⟨by omega, ?_⟩
                  simpa using hprev
      | false =>
          rw [escape_markdown_cons, if_neg (by simp [hc])] at hi hsp hne ⊢
          match i with
          | 0 => simp at hsp; rw [hsp] at hc; cases hc
          | Nat.succ k =>
              simp only [List.getD_cons_succ] at hi hsp hne ⊢
              simp only [List.length_cons] at hi
              obtain ⟨hk, hprev⟩ := ih k (by omega) hsp hne
              match k, hk with
              | Nat.succ k', _ =>
                  refine ⟨by omega, ?_⟩
                  simpa using hprev

/-- C6 (amended): escaping grows the text by exactly one character per special
character of the input (hence never by more), and every special character of
the output other than a backslash itself is immediately preceded by a
backslash.  (The inserted escaping backslashes are special characters standing
at even offsets of their escape pairs, so the claim's unrestricted version is
false — see the counterexample.) -/
theorem c6_escape_growth_and_preceded (s : List Char) :
    (escape_markdown s).length = s.length + specialCount s ∧
    (∀ i, i < (escape_markdown s).length →
      isSpecial ((escape_markdown s).getD i 'A') = true →
      (escape_markdown s).getD i 'A' ≠ '\\' →
      0 < i ∧ (escape_markdown s).getD (i - 1) 'A' = '\\') :=
  ⟨escape_markdown_length s, escape_markdown_preceded s⟩

theorem c6_escape_growth_and_preceded_witness :
    ((escape_markdown "a*".data).length
        = "a*".data.length + specialCount "a*".data) ∧
    (0 < 2 ∧ (escape_markdown "a*".data).getD 1 'A' = '\\') :=
  ⟨(c6_escape_growth_and_preceded "a*".data).1,
   (c6_escape_growth_and_preceded "a*".data).2 2 (by decide) (by decide)
     (by decide)⟩

/-- C6 (counterexample): on input `"*"` the output is `"\\*"`, whose first
character is the special character `\\` with nothing before it, so the
claim's "every occurrence of a special character in the output is immediately
preceded by a backslash" fails as stated. -/
theorem c6_counterexample : ¬ escapedEveryCharPreceded (escape_markdown ['*']) := by
  decide

/-- C8: the post-fetch stripping removes exactly the `team_country` and
`place` keys from each record, keeping every other key-value pair, the record
order inside each record, the number of records and their order. -/
theorem c8_fetch_strip_exact {α : Type} (data : List (List (String × α))) :
    fetch_strip data
        = data.map (fun r =>
            r.filter (fun kv => kv.1 != "team_country" && kv.1 != "place")) ∧
    (fetch_strip data).length = data.length := by
  constructor
  · unfold fetch_strip
    have h : ∀ r : List (String × α),
        strip_team_record r
          = r.filter (fun kv => kv.1 != "team_country" && kv.1 != "place") := by
      intro r
      unfold strip_team_record pop_key
      rw [List.filter_filter]
      simp [Bool.and_comm]
    exact congrArg (fun f => data.map f) (funext h)
  · exact List.length_map data strip_team_record

lemma isPrefixOf_eq_append (p s : List Char) :
    p.isPrefixOf s = true ↔ ∃ t, s = p ++ t := by
  induction p generalizing s with
  | nil => simp [List.isPrefixOf]
  | cons a p ih =>
      cases s with
      | nil => simp [List.isPrefixOf]
      | cons b s' =>
          simp only [List.isPrefixOf, Bool.and_eq_true, beq_iff_eq, ih,
            List.cons_append, List.cons.injEq]
          constructor
          · rintro ⟨hab, t, ht⟩
            exact ⟨t, hab.symm, ht⟩
          · rintro ⟨t, hb, ht⟩
            exact ⟨hb.symm, t, ht⟩

lemma isPrefixOf_cons_neq (p : Char) (pt : List Char) (c : Char) (s : List Char)
    (h : p ≠ c) : (p :: pt).isPrefixOf (c :: s) = false := by
  simp [List.isPrefixOf, h]

lemma countSub_cons (pat : List Char) (c : Char) (rest : List Char) :
    countSub pat (c :: rest)
      = (if pat.isPrefixOf (c :: rest) then 1 else 0) + countSub pat rest := rfl

lemma countSub_eq_zero_of_not_mem (pat s : List Char) (c : Char)
    (hc : c ∈ pat) (hs : c ∉ s) : countSub pat s = 0 := by
  induction s with
  | nil => rfl
  | cons b s' ih =>
      rw [countSub_cons]
      have h1 : pat.isPrefixOf (b :: s') = false := by
        cases hp : pat.isPrefixOf (b :: s') with
        | false => rfl
        | true =>
            obtain ⟨t, ht⟩ := (isPrefixOf_eq_append _ _).1 hp
            exact absurd (ht ▸ List.mem_append.2 (Or.inl hc)) hs
      rw [h1]
      simpa using ih (fun h => hs (List.mem_cons_of_mem _ h))

lemma countSub_append_head_not_mem (p : Char) (pt f r : List Char)
    (hf : p ∉ f) : countSub (p :: pt) (f ++ r) = countSub (p :: pt) r := by
  induction f with
  | nil => rfl
  | cons b f' ih =>
      rw [List.cons_append, countSub_cons]
      have hpb : p ≠ b := fun h => hf (h ▸ List.mem_cons_self _ _)
      rw [isPrefixOf_cons_neq _ _ _ _ hpb]
      simpa using ih (fun h => hf (List.mem_cons_of_mem _ h))

lemma countSub_comma_sep (t : List Char) :
    countSub [',', ' '] ([',', ' '] ++ t) = 1 + countSub [',', ' '] t := by
  rw [show ([',', ' '] ++ t : List Char) = ',' :: ' ' :: t from rfl,
    countSub_cons, countSub_cons]
  have e0 : ([',', ' '] : List Char).isPrefixOf (',' :: ' ' :: t) = true :=
    (isPrefixOf_eq_append _ _).2 ⟨t, rfl⟩
  have e1 : ([',', ' '] : List Char).isPrefixOf (' ' :: t) = false :=
    isPrefixOf_cons_neq ',' [' '] ' ' t (by decide)
  rw [e0, e1]
  simp [Nat.add_comm]

lemma commaJoin_cons_cons (f g : List Char) (fs : List (List Char)) :
    commaJoin (f :: g :: fs) = f ++ ", ".data ++ commaJoin (g :: fs) := rfl

lemma commaJoin_count_comma (fs : List (List Char))
    (h : ∀ f ∈ fs, ',' ∉ f) (r : List Char) :
    countSub [',', ' '] (commaJoin fs ++ r)
      = (fs.length - 1) + countSub [',', ' '] r := by
  induction fs with
  | nil => simp [commaJoin]
  | cons f fs' ih =>
      cases fs' with
      | nil =>
          rw [show commaJoin [f] = f from rfl]
          rw [countSub_append_head_not_mem ',' [' '] f r
            (h f (List.mem_singleton.2 rfl))]
          simp
      | cons g fs'' =>
          rw [commaJoin_cons_cons]
          rw [show (", ".data : List Char) = [',', ' '] from rfl]
          rw [List.append_assoc, List.append_assoc,
            countSub_append_head_not_mem ',' [' '] f _
              (h f (List.mem_cons_self _ _)),
            countSub_comma_sep]
          rw [ih (fun x hx => h x (List.mem_cons_of_mem _ hx))]
          simp [List.length_cons]
          omega

lemma commaJoin_gfree (fs : List (List Char)) (h : ∀ f ∈ fs, 'g' ∉ f) :
    'g' ∉ commaJoin fs := by
  induction fs with
  | nil => simp [commaJoin]
  | cons f fs' ih =>
      cases fs' with
      | nil => exact h f (List.mem_singleton.2 rfl)
      | cons g' fs'' =>
          rw [commaJoin_cons_cons]
          intro hmem
          rcases List.mem_append.1 hmem with hmem | hmem
          · rcases List.mem_append.1 hmem with hmem | hmem
            · exact h f (List.mem_cons_self _ _) hmem
            · simp at hmem
          · exact ih (fun x hx => h x (List.mem_cons_of_mem _ hx)) hmem

lemma countSub_og_append (f r : List Char) (hf : 'g' ∉ f)
    (h0 : ∀ t, r ≠ 'g' :: t) (h1 : ∀ t, r ≠ 'o' :: 'g' :: t) :
    countSub [' ', 'o', 'g', ' '] (f ++ r)
      = countSub [' ', 'o', 'g', ' '] r := by
  induction f with
  | nil => rfl
  | cons b f' ih =>
      rw [List.cons_append, countSub_cons]
      have hfalse :
          ([' ', 'o', 'g', ' '] : List Char).isPrefixOf (b :: (f' ++ r))
            = false := by
        cases hip : ([' ', 'o', 'g', ' '] : List Char).isPrefixOf (b :: (f' ++ r)) with
        | false => rfl
        | true =>
            exfalso
            obtain ⟨t, ht⟩ := (isPrefixOf_eq_append _ _).1 hip
            cases f' with
            | nil =>
                simp only [List.nil_append, List.cons_append,
                  List.cons.injEq] at ht
                exact h1 _ ht.2
            | cons b2 f'' =>
                cases f'' with
                | nil =>
                    simp only [List.cons_append, List.nil_append,
                      List.cons.injEq] at ht
                    exact h0 _ ht.2.2
                | cons b3 f''' =>
                    simp only [List.cons_append, List.cons.injEq] at ht
                    exact hf (by
                      rw [ht.2.2.1]
                      exact List.mem_cons_of_mem _
                        (List.mem_cons_of_mem _ (List.mem_cons_self _ _)))
      rw [hfalse]
      simpa using ih (fun h => hf (List.mem_cons_of_mem _ h))

lemma og_not_prefix_of_gfree (b : List Char) (hb : 'g' ∉ b) :
    ([' ', 'o', 'g', ' '] : List Char).isPrefixOf (' ' :: b) = false := by
  cases hip : ([' ', 'o', 'g', ' '] : List Char).isPrefixOf (' ' :: b) with
  | false => rfl
  | true =>
      exfalso
      obtain ⟨t, ht⟩ := (isPrefixOf_eq_append _ _).1 hip
      simp only [List.cons_append, List.nil_append, List.cons.injEq,
        true_and] at ht
      exact hb (by
        rw [ht]
        exact List.mem_cons_of_mem _ (List.mem_cons_self _ _))

lemma countSub_og_self (b : List Char) (hb : 'g' ∉ b) :
    countSub [' ', 'o', 'g', ' '] ([' ', 'o', 'g', ' '] ++ b) = 1 := by
  rw [show ([' ', 'o', 'g', ' '] ++ b : List Char)
      = ' ' :: 'o' :: 'g' :: ' ' :: b from rfl,
    countSub_cons, countSub_cons, countSub_cons, countSub_cons]
  have e0 : ([' ', 'o', 'g', ' '] : List Char).isPrefixOf
      (' ' :: 'o' :: 'g' :: ' ' :: b) = true :=
    (isPrefixOf_eq_append _ _).2 ⟨b, rfl⟩
  have e1 : ([' ', 'o', 'g', ' '] : List Char).isPrefixOf
      ('o' :: 'g' :: ' ' :: b) = false :=
    isPrefixOf_cons_neq ' ' ['o', 'g', ' '] 'o' _ (by decide)
  have e2 : ([' ', 'o', 'g', ' '] : List Char).isPrefixOf
      ('g' :: ' ' :: b) = false :=
    isPrefixOf_cons_neq ' ' ['o', 'g', ' '] 'g' _ (by decide)
  have e3 : ([' ', 'o', 'g', ' '] : List Char).isPrefixOf (' ' :: b) = false :=
    og_not_prefix_of_gfree b hb
  rw [e0, e1, e2, e3,
    countSub_eq_zero_of_not_mem _ _ 'g'
      (List.mem_cons_of_mem _ (List.mem_cons_of_mem _ (List.mem_cons_self _ _)))
      hb]
  simp

lemma fmtEach_length (team_map : List Team) (u i : Bool) :
    ∀ ids fs, fmtEach team_map u i ids = some fs → fs.length = ids.length := by
  intro ids
  induction ids with
  | nil => intro fs h; simp [fmtEach] at h; simp [← h]
  | cons tid rest ih =>
      intro fs h
      simp only [fmtEach] at h
      cases hl : lookup team_map tid with
      | none => rw [hl] at h; cases h
      | some t =>
          rw [hl] at h
          cases hr : fmtEach team_map u i rest with
          | none => rw [hr] at h; cases h
          | some fs' =>
              rw [hr] at h
              cases h
              simp [ih fs' hr]

lemma getLastD_mem_of_ne_nil (l : List (List Char)) :
    ∀ d, l ≠ [] → l.getLastD d ∈ l := by
  induction l with
  | nil => intro d h; exact absurd rfl h
  | cons a l' ih =>
      intro d _
      rw [List.getLastD_cons]
      cases hl : l' with
      | nil => simp
      | cons b t =>
          exact List.mem_cons_of_mem _ (hl ▸ ih a (by simp [hl]))

/-- C5 (amended): `format_team_list` of no ids is the empty string and of one
id is that id's formatted name; for n ≥ 2 ids it is the first n−1 formatted
names comma-joined, then `" og "`, then the last, in input-id order; and when
no formatted name contains a comma or the letter `g` (so names can neither
contain nor compose the two separator patterns at concatenation boundaries),
the output contains exactly n−2 occurrences of `", "` and exactly one
occurrence of `" og "`, the latter standing immediately before the final
element.  Without that restriction the occurrence counts can be exceeded by
names such as `"a, b"` — see the counterexample. -/
theorem c5_joiner_laws (team_map : List Team) (u i : Bool) :
    (format_team_list [] team_map u i = some []) ∧
    (∀ tid t, lookup team_map tid = some t →
        format_team_list [tid] team_map u i = some (format_team_name t u i)) ∧
    (∀ ids fs, 2 ≤ ids.length → fmtEach team_map u i ids = some fs →
        format_team_list ids team_map u i
            = some (commaJoin fs.dropLast ++ " og ".data ++ fs.getLastD []) ∧
        ((∀ f ∈ fs, ',' ∉ f ∧ 'g' ∉ f) →
          countSub ", ".data
              (commaJoin fs.dropLast ++ " og ".data ++ fs.getLastD [])
              = ids.length - 2 ∧
          countSub " og ".data
              (commaJoin fs.dropLast ++ " og ".data ++ fs.getLastD [])
              = 1)) := by
  refine ⟨by simp [format_team_list], ?_, ?_⟩
  · intro tid t hl
    simp [format_team_list, fmtEach, hl]
  · intro ids fs hlen hfmt
    have hfl : fs.length = ids.length := fmtEach_length team_map u i ids fs hfmt
    have hids_ne : ids ≠ [] := by
      intro h; rw [h] at hlen; simp at hlen
    have hfs_ne : fs ≠ [] := by
      intro h; rw [h] at hfl; simp at hfl; omega
    constructor
    · have hone : ¬ (fs.length = 1) := by omega
      simp only [format_team_list, if_neg hids_ne, hfmt, if_neg hone]
    · intro hclean
      have hdl : ∀ f ∈ fs.dropLast, ',' ∉ f ∧ 'g' ∉ f :=
        fun f hf => hclean f ((List.dropLast_sublist fs).subset hf)
      have hlast_mem : fs.getLastD [] ∈ fs := getLastD_mem_of_ne_nil fs [] hfs_ne
      constructor
      · rw [show (", ".data : List Char) = [',', ' '] from rfl,
          List.append_assoc,
          commaJoin_count_comma fs.dropLast (fun f hf => (hdl f hf).1) _,
          countSub_append_head_not_mem ',' [' '] (" og ".data) _ (by decide),
          countSub_eq_zero_of_not_mem _ _ ','
            (List.mem_cons_self _ _) (hclean _ hlast_mem).1,
          List.length_dropLast]
        omega
      · rw [show (" og ".data : List Char) = [' ', 'o', 'g', ' '] from rfl,
          List.append_assoc,
          countSub_og_append (commaJoin fs.dropLast) _
            (commaJoin_gfree _ (fun f hf => (hdl f hf).2))
            (by
              intro t ht
              have := congrArg (fun l : List Char => l.headD 'x') ht
              simp at this)
            (by
              intro t ht
              have := congrArg (fun l : List Char => l.headD 'x') ht
              simp at this),
          countSub_og_self _ (hclean _ hlast_mem).2]

theorem c5_joiner_laws_witness :
    format_team_list [10, 20] exMap5 false false
        = some (commaJoin (["A".data, "B".data] : List (List Char)).dropLast
            ++ " og ".data
            ++ (["A".data, "B".data] : List (List Char)).getLastD []) ∧
    countSub ", ".data
        (commaJoin (["A".data, "B".data] : List (List Char)).dropLast
          ++ " og ".data
          ++ (["A".data, "B".data] : List (List Char)).getLastD []) = 0 ∧
    countSub " og ".data
        (commaJoin (["A".data, "B".data] : List (List Char)).dropLast
          ++ " og ".data
          ++ (["A".data, "B".data] : List (List Char)).getLastD []) = 1 := by
  have h := (c5_joiner_laws exMap5 false false).2.2 [10, 20]
    ["A".data, "B".data] (by decide) (by decide)
  exact ⟨h.1, (h.2 (by decide)).1, (h.2 (by decide)).2⟩

/-- C5 (counterexample): with two ids whose first record's display name is
`a, b` — the comma and space are not markdown-special, so they survive
formatting — the joined output `a, b og c` contains one occurrence of `", "`
although the claim requires exactly n − 2 = 0. -/
theorem c5_counterexample :
    format_team_list [1, 2] exMapC5 false false = some "a, b og c".data ∧
    countSub ", ".data "a, b og c".data ≠ ([1, 2] : List Nat).length - 2 := by
  decide

lemma keyMem_iff (tid : Nat) (l : List Team) :
    keyMem tid l = true ↔ tid ∈ l.map teamKey := by
  simp only [keyMem, List.any_eq_true, beq_iff_eq, List.mem_map, teamKey]

lemma map_key_overwrite (acc : List Team) (t : Team) :
    acc.map (fun u => teamKey (if u.team_id == t.team_id then t else u))
      = acc.map teamKey := by
  induction acc with
  | nil => rfl
  | cons u acc' ih =>
      simp only [List.map_cons, ih, List.cons.injEq, and_true]
      cases hb : u.team_id == t.team_id with
      | false => simp
      | true =>
          have he : u.team_id = t.team_id := by simpa using hb
          simp [teamKey, he]

lemma map_teamKey_upsert (acc : List Team) (t : Team)
    (h : keyMem t.team_id acc = true) :
    (upsert acc t).map teamKey = acc.map teamKey := by
  unfold upsert
  rw [if_pos h, List.map_map]
  have := map_key_overwrite acc t
  simpa [Function.comp] using this

lemma dictOf_keys_nodup (ts : List Team) : ((dictOf ts).map teamKey).Nodup := by
  suffices h : ∀ acc : List Team, (acc.map teamKey).Nodup →
      ((ts.foldl upsert acc).map teamKey).Nodup from h [] (by simp)
  induction ts with
  | nil => intro acc h; exact h
  | cons t ts' ih =>
      intro acc h
      rw [List.foldl_cons]
      apply ih
      cases hk : keyMem t.team_id acc with
      | true => rw [map_teamKey_upsert acc t hk]; exact h
      | false =>
          unfold upsert
          rw [if_neg (by simp [hk]), List.map_append]
          rw [List.nodup_append]
          refine ⟨h, by simp, ?_⟩
          intro a ha hb
          simp only [List.map_cons, List.map_nil, List.mem_singleton] at hb
          subst hb
          have := (keyMem_iff t.team_id acc).2 ha
          rw [hk] at this
          cases this

lemma collectMoves_eq (om : List Team) (tr : Nat) (np op : Int)
    (l : List Team) :
    collectMoves om tr np op l
      = (spec_overtaken_ids om tr np op l, spec_passed_ids om tr np op l) := by
  induction l with
  | nil => rfl
  | cons nt rest ih =>
      by_cases ht : nt.team_id = tr
      · simp [collectMoves, ih, spec_overtaken_ids, spec_passed_ids,
          List.filter_cons, ht]
      · cases hl : lookup om nt.team_id with
        | none =>
            simp [collectMoves, ih, spec_overtaken_ids, spec_passed_ids,
              List.filter_cons, ht, hl]
        | some ot =>
            by_cases h1 : nt.country_place < np ∧ ot.country_place ≥ op
            · have hno : ¬ nt.country_place > np := by omega
              simp [collectMoves, ih, spec_overtaken_ids, spec_passed_ids,
                List.filter_cons, ht, hl, h1, hno, teamKey]
            · by_cases h2 : nt.country_place > np ∧ ot.country_place ≤ op
              · have hno : ¬ nt.country_place < np := by omega
                simp [collectMoves, ih, spec_overtaken_ids, spec_passed_ids,
                  List.filter_cons, ht, hl, h1, h2, hno, teamKey]
              · have d1 : (decide (nt.country_place > np)
                    && decide (ot.country_place ≤ op)) = false := by
                  rw [← Bool.decide_and]
                  exact decide_eq_false h2
                have d2 : (decide (nt.country_place < np)
                    && decide (ot.country_place ≥ op)) = false := by
                  rw [← Bool.decide_and]
                  exact decide_eq_false h1
                simp [collectMoves, ih, spec_overtaken_ids, spec_passed_ids,
                  List.filter_cons, ht, hl, h1, h2, d1, d2]

/-- C3: in the pairwise comparison an id is never put in both of the two
movement lists (`passed_ids` holds the teams the tracked one moved ahead of,
`overtaken_ids` the teams that moved ahead of it; their defining rank
conditions are mutually exclusive, and the iterated dict has unique keys). -/
theorem c3_movement_lists_disjoint (old new : List Team) (tid : Nat)
    (tn tOld : Team)
    (h1 : lookup (dictOf new) tid = some tn)
    (h2 : lookup (dictOf old) tid = some tOld)
    (x : Nat)
    (hx : x ∈ (collectMoves (dictOf old) tid tn.country_place
        tOld.country_place (dictOf new)).1) :
    x ∉ (collectMoves (dictOf old) tid tn.country_place
        tOld.country_place (dictOf new)).2 := by
  rw [collectMoves_eq] at hx ⊢
  intro hx2
  simp only [spec_overtaken_ids, spec_passed_ids] at hx hx2
  obtain ⟨t1, ht1mem, ht1key⟩ := List.mem_map.1 hx
  obtain ⟨t2, ht2mem, ht2key⟩ := List.mem_map.1 hx2
  obtain ⟨ht1l, ht1p⟩ := List.mem_filter.1 ht1mem
  obtain ⟨ht2l, ht2p⟩ := List.mem_filter.1 ht2mem
  have hnd := dictOf_keys_nodup new
  have heq : t1 = t2 := by
    have hinj := List.inj_on_of_nodup_map hnd
    exact hinj ht1l ht2l (by rw [show teamKey t1 = x from ht1key,
      show teamKey t2 = x from ht2key])
  subst heq
  rw [Bool.and_eq_true] at ht1p ht2p
  cases hl : lookup (dictOf old) t1.team_id with
  | none => rw [hl] at ht1p; exact absurd ht1p.2 (by simp)
  | some ot =>
      rw [hl] at ht1p ht2p
      rw [Bool.and_eq_true, decide_eq_true_eq, decide_eq_true_eq] at ht1p ht2p
      have := ht1p.2.1
      have := ht2p.2.1
      omega

theorem c3_movement_lists_disjoint_witness :
    (2 : Nat) ∉ (collectMoves (dictOf exOld1) 1 (2 : Int) (2 : Int)
        (dictOf exNew1)).2 :=
  c3_movement_lists_disjoint exOld1 exNew1 1
    ⟨1, "A".data, 2, []⟩ ⟨1, "A".data, 2, []⟩
    (by decide) (by decide) 2 (by decide)

lemma gm_removed_eq (old new : List Team) (tid : Nat) (t : Team)
    (hn : lookup (dictOf new) tid = none)
    (ho : lookup (dictOf old) tid = some t) :
    generate_message old new tid
      = some ("**".data ++ t.team_name
          ++ " er ikke på det nye leaderboardet! De lå sist på ".data
          ++ intStr t.country_place ++ ". plass.**".data) := by
  simp only [generate_message, hn, ho]

lemma gm_absent_eq (old new : List Team) (tid : Nat)
    (hn : lookup (dictOf new) tid = none)
    (ho : lookup (dictOf old) tid = none) :
    generate_message old new tid = none := by
  simp only [generate_message, hn, ho]

lemma gm_newly_eq (old new : List Team) (tid : Nat) (tn : Team)
    (hn : lookup (dictOf new) tid = some tn)
    (ho : lookup (dictOf old) tid = none) :
    generate_message old new tid
      = some ("**".data ++ format_team_name tn USE_LINKS INCLUDE_POINTS
          ++ " ligger nå på ".data ++ intStr tn.country_place
          ++ ". plass**".data) := by
  simp only [generate_message, hn, ho]

lemma gm_both_eq (old new : List Team) (tid : Nat) (tn tOld : Team)
    (hn : lookup (dictOf new) tid = some tn)
    (ho : lookup (dictOf old) tid = some tOld) :
    generate_message old new tid
      = (if tn.country_place = tOld.country_place then
          if (collectMoves (dictOf old) tid tn.country_place tOld.country_place
                (dictOf new)).1 ≠ [] ∧
              (collectMoves (dictOf old) tid tn.country_place tOld.country_place
                (dictOf new)).2 ≠ [] then
            some ("**".data ++ format_team_name tn USE_LINKS INCLUDE_POINTS
              ++ " ligger fortsatt på ".data ++ intStr tn.country_place
              ++ ". plass. Vi tok igjen ".data
              ++ (format_team_list
                    (collectMoves (dictOf old) tid tn.country_place
                      tOld.country_place (dictOf new)).1
                    (dictOf new) USE_LINKS INCLUDE_POINTS).getD []
              ++ ", men ble passert av ".data
              ++ (format_team_list
                    (collectMoves (dictOf old) tid tn.country_place
                      tOld.country_place (dictOf new)).2
                    (dictOf new) USE_LINKS INCLUDE_POINTS).getD []
              ++ ".**".data)
          else none
        else if tn.country_place = 1 then
          some ("**".data ++ format_team_name tn USE_LINKS INCLUDE_POINTS
            ++ " er på topp igjen!**".data)
        else if tn.country_place < tOld.country_place then
          if (collectMoves (dictOf old) tid tn.country_place tOld.country_place
                (dictOf new)).1 ≠ [] ∧
              (collectMoves (dictOf old) tid tn.country_place tOld.country_place
                (dictOf new)).2 ≠ [] then
            some ("**".data ++ format_team_name tn USE_LINKS INCLUDE_POINTS
              ++ " har rykket opp til ".data ++ intStr tn.country_place
              ++ ". plass! Vi har tatt igjen ".data
              ++ (format_team_list
                    (collectMoves (dictOf old) tid tn.country_place
                      tOld.country_place (dictOf new)).1
                    (dictOf new) USE_LINKS INCLUDE_POINTS).getD []
              ++ ", men ble også passert av ".data
              ++ (format_team_list
                    (collectMoves (dictOf old) tid tn.country_place
                      tOld.country_place (dictOf new)).2
                    (dictOf new) USE_LINKS INCLUDE_POINTS).getD []
              ++ ".**".data)
          else if (collectMoves (dictOf old) tid tn.country_place
              tOld.country_place (dictOf new)).1 ≠ [] then
            some ("**".data ++ format_team_name tn USE_LINKS INCLUDE_POINTS
              ++ " har rykket opp til ".data ++ intStr tn.country_place
              ++ ". plass! Vi har tatt igjen ".data
              ++ (format_team_list
                    (collectMoves (dictOf old) tid tn.country_place
                      tOld.country_place (dictOf new)).1
                    (dictOf new) USE_LINKS INCLUDE_POINTS).getD []
              ++ ".**".data)
          else
            some ("**".data ++ format_team_name tn USE_LINKS INCLUDE_POINTS
              ++ " har rykket opp til ".data ++ intStr tn.country_place
              ++ ". plass!**".data)
        else if tn.country_place > tOld.country_place then
          if (collectMoves (dictOf old) tid tn.country_place tOld.country_place
                (dictOf new)).1 ≠ [] ∧
              (collectMoves (dictOf old) tid tn.country_place tOld.country_place
                (dictOf new)).2 ≠ [] then
            some ("**".data ++ format_team_name tn USE_LINKS INCLUDE_POINTS
              ++ " har falt til ".data ++ intStr tn.country_place
              ++ ". plass! Vi tok igjen ".data
              ++ (format_team_list
                    (collectMoves (dictOf old) tid tn.country_place
                      tOld.country_place (dictOf new)).1
                    (dictOf new) USE_LINKS INCLUDE_POINTS).getD []
              ++ ", men ble også passert av ".data
              ++ (format_team_list
                    (collectMoves (dictOf old) tid tn.country_place
                      tOld.country_place (dictOf new)).2
                    (dictOf new) USE_LINKS INCLUDE_POINTS).getD []
              ++ ".**".data)
          else if (collectMoves (dictOf old) tid tn.country_place
              tOld.country_place (dictOf new)).2 ≠ [] then
            some ("**".data ++ format_team_name tn USE_LINKS INCLUDE_POINTS
              ++ " har falt til ".data ++ intStr tn.country_place
              ++ ". plass etter å ha blitt passert av ".data
              ++ (format_team_list
                    (collectMoves (dictOf old) tid tn.country_place
                      tOld.country_place (dictOf new)).2
                    (dictOf new) USE_LINKS INCLUDE_POINTS).getD []
              ++ ".**".data)
          else
            some ("**".data ++ format_team_name tn USE_LINKS INCLUDE_POINTS
              ++ " har falt til ".data ++ intStr tn.country_place
              ++ ". plass.**".data)
        else
          some ("**".data ++ format_team_name tn USE_LINKS INCLUDE_POINTS
            ++ " ligger nå på ".data ++ intStr tn.country_place
            ++ ". plass.**".data)) := by
  simp only [generate_message, hn, ho]

/-- C4: with the tracked team in both snapshots at positive ranks, new rank 1
and old rank ≠ 1, the message is exactly the fixed "back on top" template,
containing only the formatted team name — the movement lists do not appear. -/
theorem c4_back_on_top (old new : List Team) (tid : Nat) (tn tOld : Team)
    (hn : lookup (dictOf new) tid = some tn)
    (ho : lookup (dictOf old) tid = some tOld)
    (hp1 : 0 < tn.country_place) (hp2 : 0 < tOld.country_place)
    (h1 : tn.country_place = 1) (h2 : tOld.country_place ≠ 1) :
    generate_message old new tid
      = some ("**".data ++ format_team_name tn USE_LINKS INCLUDE_POINTS
          ++ " er på topp igjen!**".data) := by
  rw [gm_both_eq old new tid tn tOld hn ho]
  have hne : ¬ tn.country_place = tOld.country_place := by
    rw [h1]; exact fun h => h2 h.symm
  rw [if_neg hne, if_pos h1]

theorem c4_back_on_top_witness :
    generate_message exOld4 exNew4 1
      = some ("**".data
          ++ format_team_name ⟨1, "A".data, 1, []⟩ USE_LINKS INCLUDE_POINTS
          ++ " er på topp igjen!**".data) :=
  c4_back_on_top exOld4 exNew4 1 ⟨1, "A".data, 1, []⟩ ⟨1, "A".data, 2, []⟩
    (by decide) (by decide) (by decide) (by decide) (by decide) (by decide)

/-- C1 (counterexample): concrete snapshots where the tracked team stays at
rank 2, team 2 falls behind it and team 3 moves ahead of it.  The spec's
`passed_ids` (ids that moved ahead of the tracked team, `new_t < new_rank`
and `old_t >= old_rank`) is `[3]` and its `overtaken_ids` is `[2]`, but the
rendered message does not put `passed_ids` in the "Vi tok igjen …" (caught up
to) slot as the claim requires — the code fills that slot with the teams the
tracked team moved ahead of. -/
theorem c1_counterexample :
    spec_passed_ids (dictOf exOld1) 1 2 2 (dictOf exNew1) = [3] ∧
    spec_overtaken_ids (dictOf exOld1) 1 2 2 (dictOf exNew1) = [2] ∧
    generate_message exOld1 exNew1 1
      ≠ some ("**".data
          ++ format_team_name ⟨1, "A".data, 2, []⟩ USE_LINKS INCLUDE_POINTS
          ++ " ligger fortsatt på ".data ++ intStr 2
          ++ ". plass. Vi tok igjen ".data
          ++ (format_team_list [3] (dictOf exNew1)
                USE_LINKS INCLUDE_POINTS).getD []
          ++ ", men ble passert av ".data
          ++ (format_team_list [2] (dictOf exNew1)
                USE_LINKS INCLUDE_POINTS).getD []
          ++ ".**".data) := by
  decide

/-- C1 (amended): in every rendered message, the "Vi tok igjen …" (caught up
to) slot displays the teams the tracked entity moved ahead of — the spec's
`overtaken_ids` set, condition `new_t > new_rank` and `old_t <= old_rank` —
and the "passert av …" (passed by) slot displays the teams that moved ahead
of the tracked entity — the spec's `passed_ids` set, condition
`new_t < new_rank` and `old_t >= old_rank`; i.e. the claim's assignment of
the two sets to the two slots is exactly swapped. -/
theorem c1_slot_contents (old new : List Team) (tid : Nat) (tn tOld : Team)
    (hn : lookup (dictOf new) tid = some tn)
    (ho : lookup (dictOf old) tid = some tOld) :
    (collectMoves (dictOf old) tid tn.country_place tOld.country_place
        (dictOf new)).1
      = spec_overtaken_ids (dictOf old) tid tn.country_place
          tOld.country_place (dictOf new) ∧
    (collectMoves (dictOf old) tid tn.country_place tOld.country_place
        (dictOf new)).2
      = spec_passed_ids (dictOf old) tid tn.country_place
          tOld.country_place (dictOf new) ∧
    (tn.country_place = tOld.country_place →
      spec_overtaken_ids (dictOf old) tid tn.country_place tOld.country_place
          (dictOf new) ≠ [] →
      spec_passed_ids (dictOf old) tid tn.country_place tOld.country_place
          (dictOf new) ≠ [] →
      generate_message old new tid
        = some ("**".data ++ format_team_name tn USE_LINKS INCLUDE_POINTS
            ++ " ligger fortsatt på ".data ++ intStr tn.country_place
            ++ ". plass. Vi tok igjen ".data
            ++ (format_team_list
                  (spec_overtaken_ids (dictOf old) tid tn.country_place
                    tOld.country_place (dictOf new))
                  (dictOf new) USE_LINKS INCLUDE_POINTS).getD []
            ++ ", men ble passert av ".data
            ++ (format_team_list
                  (spec_passed_ids (dictOf old) tid tn.country_place
                    tOld.country_place (dictOf new))
                  (dictOf new) USE_LINKS INCLUDE_POINTS).getD []
            ++ ".**".data)) ∧
    (tn.country_place ≠ 1 → tn.country_place < tOld.country_place →
      spec_overtaken_ids (dictOf old) tid tn.country_place tOld.country_place
          (dictOf new) ≠ [] →
      spec_passed_ids (dictOf old) tid tn.country_place tOld.country_place
          (dictOf new) ≠ [] →
      generate_message old new tid
        = some ("**".data ++ format_team_name tn USE_LINKS INCLUDE_POINTS
            ++ " har rykket opp til ".data ++ intStr tn.country_place
            ++ ". plass! Vi har tatt igjen ".data
            ++ (format_team_list
                  (spec_overtaken_ids (dictOf old) tid tn.country_place
                    tOld.country_place (dictOf new))
                  (dictOf new) USE_LINKS INCLUDE_POINTS).getD []
            ++ ", men ble også passert av ".data
            ++ (format_team_list
                  (spec_passed_ids (dictOf old) tid tn.country_place
                    tOld.country_place (dictOf new))
                  (dictOf new) USE_LINKS INCLUDE_POINTS).getD []
            ++ ".**".data)) ∧
    (tn.country_place ≠ 1 → tn.country_place < tOld.country_place →
      spec_overtaken_ids (dictOf old) tid tn.country_place tOld.country_place
          (dictOf new) ≠ [] →
      spec_passed_ids (dictOf old) tid tn.country_place tOld.country_place
          (dictOf new) = [] →
      generate_message old new tid
        = some ("**".data ++ format_team_name tn USE_LINKS INCLUDE_POINTS
            ++ " har rykket opp til ".data ++ intStr tn.country_place
            ++ ". plass! Vi har tatt igjen ".data
            ++ (format_team_list
                  (spec_overtaken_ids (dictOf old) tid tn.country_place
                    tOld.country_place (dictOf new))
                  (dictOf new) USE_LINKS INCLUDE_POINTS).getD []
            ++ ".**".data)) ∧
    (tn.country_place ≠ 1 → tn.country_place > tOld.country_place →
      spec_overtaken_ids (dictOf old) tid tn.country_place tOld.country_place
          (dictOf new) ≠ [] →
      spec_passed_ids (dictOf old) tid tn.country_place tOld.country_place
          (dictOf new) ≠ [] →
      generate_message old new tid
        = some ("**".data ++ format_team_name tn USE_LINKS INCLUDE_POINTS
            ++ " har falt til ".data ++ intStr tn.country_place
            ++ ". plass! Vi tok igjen ".data
            ++ (format_team_list
                  (spec_overtaken_ids (dictOf old) tid tn.country_place
                    tOld.country_place (dictOf new))
                  (dictOf new) USE_LINKS INCLUDE_POINTS).getD []
            ++ ", men ble også passert av ".data
            ++ (format_team_list
                  (spec_passed_ids (dictOf old) tid tn.country_place
                    tOld.country_place (dictOf new))
                  (dictOf new) USE_LINKS INCLUDE_POINTS).getD []
            ++ ".**".data)) ∧
    (tn.country_place ≠ 1 → tn.country_place > tOld.country_place →
      spec_overtaken_ids (dictOf old) tid tn.country_place tOld.country_place
          (dictOf new) = [] →
      spec_passed_ids (dictOf old) tid tn.country_place tOld.country_place
          (dictOf new) ≠ [] →
      generate_message old new tid
        = some ("**".data ++ format_team_name tn USE_LINKS INCLUDE_POINTS
            ++ " har falt til ".data ++ intStr tn.country_place
            ++ ". plass etter å ha blitt passert av ".data
            ++ (format_team_list
                  (spec_passed_ids (dictOf old) tid tn.country_place
                    tOld.country_place (dictOf new))
                  (dictOf new) USE_LINKS INCLUDE_POINTS).getD []
            ++ ".**".data)) := by
  have hcm := collectMoves_eq (dictOf old) tid tn.country_place
    tOld.country_place (dictOf new)
  have hfst : (collectMoves (dictOf old) tid tn.country_place
      tOld.country_place (dictOf new)).1
      = spec_overtaken_ids (dictOf old) tid tn.country_place
          tOld.country_place (dictOf new) := by rw [hcm]
  have hsnd : (collectMoves (dictOf old) tid tn.country_place
      tOld.country_place (dictOf new)).2
      = spec_passed_ids (dictOf old) tid tn.country_place
          tOld.country_place (dictOf new) := by rw [hcm]
  refine ⟨hfst, hsnd, ?_, ?_, ?_, ?_, ?_⟩
  · intro heq hO hP
    rw [gm_both_eq old new tid tn tOld hn ho, hfst, hsnd,
      if_pos heq, if_pos ⟨hO, hP⟩]
  · intro h1 hlt hO hP
    have hne : ¬ tn.country_place = tOld.country_place := by omega
    rw [gm_both_eq old new tid tn tOld hn ho, hfst, hsnd,
      if_neg hne, if_neg h1, if_pos hlt, if_pos ⟨hO, hP⟩]
  · intro h1 hlt hO hP
    have hne : ¬ tn.country_place = tOld.country_place := by omega
    have hnboth : ¬ (spec_overtaken_ids (dictOf old) tid tn.country_place
        tOld.country_place (dictOf new) ≠ [] ∧
        spec_passed_ids (dictOf old) tid tn.country_place
          tOld.country_place (dictOf new) ≠ []) := by
      intro h; exact h.2 hP
    rw [gm_both_eq old new tid tn tOld hn ho, hfst, hsnd,
      if_neg hne, if_neg h1, if_pos hlt, if_neg hnboth, if_pos hO]
  · intro h1 hgt hO hP
    have hne : ¬ tn.country_place = tOld.country_place := by omega
    have hnlt : ¬ tn.country_place < tOld.country_place := by omega
    rw [gm_both_eq old new tid tn tOld hn ho, hfst, hsnd,
      if_neg hne, if_neg h1, if_neg hnlt, if_pos hgt, if_pos ⟨hO, hP⟩]
  · intro h1 hgt hO hP
    have hne : ¬ tn.country_place = tOld.country_place := by omega
    have hnlt : ¬ tn.country_place < tOld.country_place := by omega
    have hnboth : ¬ (spec_overtaken_ids (dictOf old) tid tn.country_place
        tOld.country_place (dictOf new) ≠ [] ∧
        spec_passed_ids (dictOf old) tid tn.country_place
          tOld.country_place (dictOf new) ≠ []) := by
      intro h; exact h.1 hO
    rw [gm_both_eq old new tid tn tOld hn ho, hfst, hsnd,
      if_neg hne, if_neg h1, if_neg hnlt, if_pos hgt, if_neg hnboth, if_pos hP]

theorem c1_slot_contents_witness :
    generate_message exOld1 exNew1 1
      = some ("**".data
          ++ format_team_name ⟨1, "A".data, 2, []⟩ USE_LINKS INCLUDE_POINTS
          ++ " ligger fortsatt på ".data ++ intStr 2
          ++ ". plass. Vi tok igjen ".data
          ++ (format_team_list
                (spec_overtaken_ids (dictOf exOld1) 1 2 2 (dictOf exNew1))
                (dictOf exNew1) USE_LINKS INCLUDE_POINTS).getD []
          ++ ", men ble passert av ".data
          ++ (format_team_list
                (spec_passed_ids (dictOf exOld1) 1 2 2 (dictOf exNew1))
                (dictOf exNew1) USE_LINKS INCLUDE_POINTS).getD []
          ++ ".**".data) :=
  (c1_slot_contents exOld1 exNew1 1 ⟨1, "A".data, 2, []⟩ ⟨1, "A".data, 2, []⟩
    (by decide) (by decide)).2.2.1 rfl (by decide) (by decide)

lemma gm_some_decomp (old new : List Team) (tid : Nat) (m : List Char)
    (h : generate_message old new tid = some m) :
    ∃ core : List Char, m = "**".data ++ core ++ "**".data ∧
      (∀ tn, lookup (dictOf new) tid = some tn →
        ∃ rest, core = format_team_name tn USE_LINKS INCLUDE_POINTS ++ rest) ∧
      (lookup (dictOf new) tid = none →
        ∃ t rest, lookup (dictOf old) tid = some t ∧
          core = t.team_name ++ rest) := by
  cases hn : lookup (dictOf new) tid with
  | none =>
      cases ho : lookup (dictOf old) tid with
      | none => rw [gm_absent_eq old new tid hn ho] at h; cases h
      | some t =>
          rw [gm_removed_eq old new tid t hn ho] at h
          have hm := Option.some.inj h
          subst hm
          refine ⟨t.team_name
            ++ " er ikke på det nye leaderboardet! De lå sist på ".data
            ++ intStr t.country_place ++ ". plass.".data, ?_, ?_, ?_⟩
          · rw [show (". plass.**".data : List Char)
                = ". plass.".data ++ "**".data from rfl]
            simp only [List.append_assoc]
          · intro tn htn; exact Option.noConfusion htn
          · intro _
            exact ⟨t, " er ikke på det nye leaderboardet! De lå sist på ".data
              ++ intStr t.country_place ++ ". plass.".data, rfl,
              by simp only [List.append_assoc]⟩
  | some tn =>
      cases ho : lookup (dictOf old) tid with
      | none =>
          rw [gm_newly_eq old new tid tn hn ho] at h
          have hm := Option.some.inj h
          subst hm
          refine ⟨format_team_name tn USE_LINKS INCLUDE_POINTS
            ++ " ligger nå på ".data ++ intStr tn.country_place
            ++ ". plass".data, ?_, ?_, ?_⟩
          · rw [show (". plass**".data : List Char)
                = ". plass".data ++ "**".data from rfl]
            simp only [List.append_assoc]
          · intro tn' htn'
            obtain rfl := Option.some.inj htn'
            simp only [List.append_assoc]
            exact ⟨_, rfl⟩
          · intro hnone; exact Option.noConfusion hnone
      | some tOld =>
          rw [gm_both_eq old new tid tn tOld hn ho] at h
          split at h

          · split at h
            · have hm := Option.some.inj h
              subst hm
              refine ⟨format_team_name tn USE_LINKS INCLUDE_POINTS
                ++ " ligger fortsatt på ".data ++ intStr tn.country_place
                ++ ". plass. Vi tok igjen ".data
                ++ (format_team_list
                      (collectMoves (dictOf old) tid tn.country_place
                        tOld.country_place (dictOf new)).1
                      (dictOf new) USE_LINKS INCLUDE_POINTS).getD []
                ++ ", men ble passert av ".data
                ++ (format_team_list
                      (collectMoves (dictOf old) tid tn.country_place
                        tOld.country_place (dictOf new)).2
                      (dictOf new) USE_LINKS INCLUDE_POINTS).getD []
                ++ ".".data, ?_, ?_, ?_⟩
              · rw [show (".**".data : List Char) = ".".data ++ "**".data from rfl]
                simp only [List.append_assoc]
              · intro tn' htn'
                obtain rfl := Option.some.inj htn'
                simp only [List.append_assoc]
                exact ⟨_, rfl⟩
              · intro hx; exact Option.noConfusion hx
            · cases h
          · split at h
            · have hm := Option.some.inj h
              subst hm
              refine ⟨format_team_name tn USE_LINKS INCLUDE_POINTS
                ++ " er på topp igjen!".data, ?_, ?_, ?_⟩
              · rw [show (" er på topp igjen!**".data : List Char)
                    = " er på topp igjen!".data ++ "**".data from rfl]
                simp only [List.append_assoc]
              · intro tn' htn'
                obtain rfl := Option.some.inj htn'
                simp only [List.append_assoc]
                exact ⟨_, rfl⟩
              · intro hx; exact Option.noConfusion hx
            · split at h
              · split at h
                · have hm := Option.some.inj h
                  subst hm
                  refine ⟨format_team_name tn USE_LINKS INCLUDE_POINTS
                    ++ " har rykket opp til ".data ++ intStr tn.country_place
                    ++ ". plass! Vi har tatt igjen ".data
                    ++ (format_team_list
                          (collectMoves (dictOf old) tid tn.country_place
                            tOld.country_place (dictOf new)).1
                          (dictOf new) USE_LINKS INCLUDE_POINTS).getD []
                    ++ ", men ble også passert av ".data
                    ++ (format_team_list
                          (collectMoves (dictOf old) tid tn.country_place
                            tOld.country_place (dictOf new)).2
                          (dictOf new) USE_LINKS INCLUDE_POINTS).getD []
                    ++ ".".data, ?_, ?_, ?_⟩
                  · rw [show (".**".data : List Char)
                        = ".".data ++ "**".data from rfl]
                    simp only [List.append_assoc]
                  · intro tn' htn'
                    obtain rfl := Option.some.inj htn'
                    simp only [List.append_assoc]
                    exact ⟨_, rfl⟩
                  · intro hx; exact Option.noConfusion hx
                · split at h
                  · have hm := Option.some.inj h
                    subst hm
                    refine ⟨format_team_name tn USE_LINKS INCLUDE_POINTS
                      ++ " har rykket opp til ".data ++ intStr tn.country_place
                      ++ ". plass! Vi har tatt igjen ".data
                      ++ (format_team_list
                            (collectMoves (dictOf old) tid tn.country_place
                              tOld.country_place (dictOf new)).1
                            (dictOf new) USE_LINKS INCLUDE_POINTS).getD []
                      ++ ".".data, ?_, ?_, ?_⟩
                    · rw [show (".**".data : List Char)
                          = ".".data ++ "**".data from rfl]
                      simp only [List.append_assoc]
                    · intro tn' htn'
                      obtain rfl := Option.some.inj htn'
                      simp only [List.append_assoc]
                      exact ⟨_, rfl⟩
                    · intro hx; exact Option.noConfusion hx
                  · have hm := Option.some.inj h
                    subst hm
                    refine ⟨format_team_name tn USE_LINKS INCLUDE_POINTS
                      ++ " har rykket opp til ".data ++ intStr tn.country_place
                      ++ ". plass!".data, ?_, ?_, ?_⟩
                    · rw [show (". plass!**".data : List Char)
                          = ". plass!".data ++ "**".data from rfl]
                      simp only [List.append_assoc]
                    · intro tn' htn'
                      obtain rfl := Option.some.inj htn'
                      simp only [List.append_assoc]
                      exact ⟨_, rfl⟩
                    · intro hx; exact Option.noConfusion hx
              · split at h
                · split at h
                  · have hm := Option.some.inj h
                    subst hm
                    refine ⟨format_team_name tn USE_LINKS INCLUDE_POINTS
                      ++ " har falt til ".data ++ intStr tn.country_place
                      ++ ". plass! Vi tok igjen ".data
                      ++ (format_team_list
                            (collectMoves (dictOf old) tid tn.country_place
                              tOld.country_place (dictOf new)).1
                            (dictOf new) USE_LINKS INCLUDE_POINTS).getD []
                      ++ ", men ble også passert av ".data
                      ++ (format_team_list
                            (collectMoves (dictOf old) tid tn.country_place
                              tOld.country_place (dictOf new)).2
                            (dictOf new) USE_LINKS INCLUDE_POINTS).getD []
                      ++ ".".data, ?_, ?_, ?_⟩
                    · rw [show (".**".data : List Char)
                          = ".".data ++ "**".data from rfl]
                      simp only [List.append_assoc]
                    · intro tn' htn'
                      obtain rfl := Option.some.inj htn'
                      simp only [List.append_assoc]
                      exact ⟨_, rfl⟩
                    · intro hx; exact Option.noConfusion hx
                  · split at h
                    · have hm := Option.some.inj h
                      subst hm
                      refine ⟨format_team_name tn USE_LINKS INCLUDE_POINTS
                        ++ " har falt til ".data ++ intStr tn.country_place
                        ++ ". plass etter å ha blitt passert av ".data
                        ++ (format_team_list
                              (collectMoves (dictOf old) tid tn.country_place
                                tOld.country_place (dictOf new)).2
                              (dictOf new) USE_LINKS INCLUDE_POINTS).getD []
                        ++ ".".data, ?_, ?_, ?_⟩
                      · rw [show (".**".data : List Char)
                            = ".".data ++ "**".data from rfl]
                        simp only [List.append_assoc]
                      · intro tn' htn'
                        obtain rfl := Option.some.inj htn'
                        simp only [List.append_assoc]
                        exact ⟨_, rfl⟩
                      · intro hx; exact Option.noConfusion hx
                    · have hm := Option.some.inj h
                      subst hm
                      refine ⟨format_team_name tn USE_LINKS INCLUDE_POINTS
                        ++ " har falt til ".data ++ intStr tn.country_place
                        ++ ". plass.".data, ?_, ?_, ?_⟩
                      · rw [show (". plass.**".data : List Char)
                            = ". plass.".data ++ "**".data from rfl]
                        simp only [List.append_assoc]
                      · intro tn' htn'
                        obtain rfl := Option.some.inj htn'
                        simp only [List.append_assoc]
                        exact ⟨_, rfl⟩
                      · intro hx; exact Option.noConfusion hx
                · have hm := Option.some.inj h
                  subst hm
                  refine ⟨format_team_name tn USE_LINKS INCLUDE_POINTS
                    ++ " ligger nå på ".data ++ intStr tn.country_place
                    ++ ". plass.".data, ?_, ?_, ?_⟩
                  · rw [show (". plass.**".data : List Char)
                        = ". plass.".data ++ "**".data from rfl]
                    simp only [List.append_assoc]
                  · intro tn' htn'
                    obtain rfl := Option.some.inj htn'
                    simp only [List.append_assoc]
                    exact ⟨_, rfl⟩
                  · intro hx; exact Option.noConfusion hx

/-- C9: in the removed branch the message interpolates the raw `team_name`
(no markdown escaping, no hyperlink), while every other message-producing
branch opens with the escaped/link-formatted name `format_team_name`. -/
theorem c9_removed_uses_raw_name (old new : List Team) (tid : Nat) :
    (∀ t, lookup (dictOf new) tid = none →
      lookup (dictOf old) tid = some t →
      generate_message old new tid
        = some ("**".data ++ t.team_name
            ++ " er ikke på det nye leaderboardet! De lå sist på ".data
            ++ intStr t.country_place ++ ". plass.**".data)) ∧
    (∀ tn m, lookup (dictOf new) tid = some tn →
      generate_message old new tid = some m →
      ∃ rest, m = "**".data
        ++ format_team_name tn USE_LINKS INCLUDE_POINTS ++ rest) := by
  constructor
  · intro t hn ho
    exact gm_removed_eq old new tid t hn ho
  · intro tn m hn h
    obtain ⟨core, hcore, hfmt, -⟩ := gm_some_decomp old new tid m h
    obtain ⟨rest, hrest⟩ := hfmt tn hn
    refine ⟨rest ++ "**".data, ?_⟩
    rw [hcore, hrest]
    simp only [List.append_assoc]

theorem c9_removed_uses_raw_name_witness :
    generate_message exOld9 exNew9 1
      = some ("**".data ++ "A*B".data
          ++ " er ikke på det nye leaderboardet! De lå sist på ".data
          ++ intStr 2 ++ ". plass.**".data) :=
  (c9_removed_uses_raw_name exOld9 exNew9 1).1 ⟨1, "A*B".data, 2, []⟩
    (by decide) (by decide)

/-- C10: every message `generate_message` returns begins with `**` and ends
with `**` — the whole notification is bold-wrapped. -/
theorem c10_messages_bold_wrapped (old new : List Team) (tid : Nat)
    (m : List Char) (h : generate_message old new tid = some m) :
    (∃ r, m = '*' :: '*' :: r) ∧ (∃ f, m = f ++ ['*', '*']) := by
  obtain ⟨core, hcore, -, -⟩ := gm_some_decomp old new tid m h
  constructor
  · refine ⟨core ++ "**".data, ?_⟩
    rw [hcore, List.append_assoc]
    rfl
  · exact ⟨"**".data ++ core, hcore⟩

theorem c10_messages_bold_wrapped_witness :
    (∃ r, ("**".data
        ++ format_team_name ⟨1, "A".data, 1, []⟩ USE_LINKS INCLUDE_POINTS
        ++ " er på topp igjen!**".data : List Char) = '*' :: '*' :: r) ∧
    (∃ f, ("**".data
        ++ format_team_name ⟨1, "A".data, 1, []⟩ USE_LINKS INCLUDE_POINTS
        ++ " er på topp igjen!**".data : List Char) = f ++ ['*', '*']) :=
  c10_messages_bold_wrapped exOld4 exNew4 1 _ (by decide)

lemma mem_keys_foldl_upsert (ts : List Team) :
    ∀ (acc : List Team) (tid : Nat),
      tid ∈ (ts.foldl upsert acc).map teamKey ↔
        tid ∈ acc.map teamKey ∨ tid ∈ ts.map teamKey := by
  induction ts with
  | nil => intro acc tid; simp
  | cons t ts' ih =>
      intro acc tid
      rw [List.foldl_cons, ih (upsert acc t) tid]
      cases hk : keyMem t.team_id acc with
      | true =>
          rw [map_teamKey_upsert acc t hk]
          have ht : t.team_id ∈ acc.map teamKey := (keyMem_iff _ _).1 hk
          simp only [List.map_cons, List.mem_cons, teamKey]
          constructor
          · rintro (h | h)
            · exact Or.inl h
            · exact Or.inr (Or.inr h)
          · rintro (h | h | h)
            · exact Or.inl h
            · exact Or.inl (by rw [h]; exact ht)
            · exact Or.inr h
      | false =>
          unfold upsert
          rw [if_neg (by simp [hk])]
          simp only [List.map_append, List.mem_append, List.map_cons,
            List.map_nil, List.mem_singleton, List.mem_cons,
            List.not_mem_nil, or_false, teamKey]
          tauto

/-- The dict built from a snapshot holds an id exactly when some record of
the snapshot carries it, so the code's `tid not in new_map` test means
"absent from the new snapshot". -/
lemma lookup_dictOf_none_iff (ts : List Team) (tid : Nat) :
    lookup (dictOf ts) tid = none ↔ ∀ t ∈ ts, t.team_id ≠ tid := by
  rw [lookup, List.find?_eq_none]
  constructor
  · intro h t ht
    intro he
    have hmem : tid ∈ (dictOf ts).map teamKey := by
      rw [dictOf, mem_keys_foldl_upsert]
      exact Or.inr (List.mem_map.2 ⟨t, ht, he⟩)
    obtain ⟨u, hu, hk⟩ := List.mem_map.1 hmem
    have hne := h u hu
    simp only [beq_iff_eq] at hne
    exact hne hk
  · intro h u hu
    simp only [beq_iff_eq]
    intro he
    have hmem : tid ∈ (dictOf ts).map teamKey :=
      List.mem_map.2 ⟨u, hu, he⟩
    rw [dictOf, mem_keys_foldl_upsert] at hmem
    rcases hmem with hmem | hmem
    · simp at hmem
    · obtain ⟨t, ht, hk⟩ := List.mem_map.1 hmem
      exact h t ht hk

/-- C2: `generate_message` returns no message exactly when the tracked id is
absent from both snapshots, or it is present in both with unchanged rank and
the two movement lists are not both non-empty; every other case yields a
message. -/
theorem c2_none_iff (old new : List Team) (tid : Nat) :
    generate_message old new tid = none ↔
      ((∀ t ∈ new, t.team_id ≠ tid) ∧ (∀ t ∈ old, t.team_id ≠ tid)) ∨
      (∃ tn tOld, lookup (dictOf new) tid = some tn ∧
        lookup (dictOf old) tid = some tOld ∧
        tn.country_place = tOld.country_place ∧
        ¬ ((collectMoves (dictOf old) tid tn.country_place tOld.country_place
              (dictOf new)).1 ≠ [] ∧
           (collectMoves (dictOf old) tid tn.country_place tOld.country_place
              (dictOf new)).2 ≠ [])) := by
  constructor
  · intro h
    cases hn : lookup (dictOf new) tid with
    | none =>
        cases ho : lookup (dictOf old) tid with
        | none =>
            exact Or.inl ⟨(lookup_dictOf_none_iff new tid).1 hn,
              (lookup_dictOf_none_iff old tid).1 ho⟩
        | some t =>
            rw [gm_removed_eq old new tid t hn ho] at h
            exact Option.noConfusion h
    | some tn =>
        cases ho : lookup (dictOf old) tid with
        | none =>
            rw [gm_newly_eq old new tid tn hn ho] at h
            exact Option.noConfusion h
        | some tOld =>
            rw [gm_both_eq old new tid tn tOld hn ho] at h
            refine Or.inr ⟨tn, tOld, rfl, rfl, ?_⟩
            split at h
            · split at h
              · exact Option.noConfusion h
              · rename_i heq hnb
                exact ⟨heq, hnb⟩
            · exfalso
              split at h
              · exact Option.noConfusion h
              · split at h
                · split at h
                  · exact Option.noConfusion h
                  · split at h
                    · exact Option.noConfusion h
                    · exact Option.noConfusion h
                · split at h
                  · split at h
                    · exact Option.noConfusion h
                    · split at h
                      · exact Option.noConfusion h
                      · exact Option.noConfusion h
                  · exact Option.noConfusion h
  · rintro (⟨hn, ho⟩ | ⟨tn, tOld, hn, ho, heq, hnb⟩)
    · exact gm_absent_eq old new tid ((lookup_dictOf_none_iff new tid).2 hn)
        ((lookup_dictOf_none_iff old tid).2 ho)
    · rw [gm_both_eq old new tid tn tOld hn ho, if_pos heq, if_neg hnb]

end CtftimeVakta
